import Mathlib

/-!
Verification of the timeline selection component
(src/src/components/timeline/Selection.js).

Times and pixel coordinates are modelled as rationals; the component's
event handlers become pure functions from their inputs (the props read
from the store, the geometry captured at gesture start, and the event's
coordinates) to the updates they dispatch.
-/

set_option autoImplicit false

namespace TimelineSelection

/-- A time range, as the `StartEndRange` flow type: `{start, end}`.
The `end` field is called `endT` because `end` is a keyword. -/
structure StartEndRange where
  start : ℚ
  endT : ℚ
deriving DecidableEq, Repr

/-- The `PreviewSelection` tagged value: either no selection, or a
selection `{selectionStart, selectionEnd, isModifying}`. -/
inductive PreviewSelection where
  | noSelection
  | selection (selectionStart selectionEnd : ℚ) (isModifying : Bool)
deriving DecidableEq, Repr

/-- A content rectangle as returned by `getContentRect`, with
`right = left + width` and `bottom = top + height`. -/
structure Rect where
  left : ℚ
  top : ℚ
  width : ℚ
  height : ℚ
deriving DecidableEq, Repr

def Rect.right (r : Rect) : ℚ := r.left + r.width

def Rect.bottom (r : Rect) : ℚ := r.top + r.height

/-- The `clamp` function imported from the npm `clamp` package:
when `min < max` it clamps `value` into `[min, max]`; otherwise it
clamps `value` into `[max, min]`. -/
def clamp (value low high : ℚ) : ℚ :=
  if low < high then
    if value < low then low else if value > high then high else value
  else
    if value < high then high else if value > low then low else value

/-- The pixel-to-time affine map used (inline) on pointer-down,
pointer-move and pointer-up:
`(pixelOffset / containerWidth) * (range.end - range.start) + range.start`. -/
def pixelToTime (pixelOffset containerWidth : ℚ) (range : StartEndRange) : ℚ :=
  pixelOffset / containerWidth * (range.endT - range.start) + range.start

/-- The data captured by `_onMouseDown` for the duration of one
new-selection gesture: the props read at mouse-down (`committedRange`,
`minSelectionStartWidth`), the content rectangle computed then, and the
`mouseDownTime` derived from the mouse-down position. -/
structure GestureCtx where
  committedRange : StartEndRange
  minSelectionStartWidth : ℚ
  rect : Rect
  mouseDownTime : ℚ
deriving DecidableEq, Repr

/-- A mouse event's relevant data: position and button. -/
structure MouseEvent where
  pageX : ℚ
  pageY : ℚ
  button : ℕ
deriving DecidableEq, Repr

/-- `_onMouseDown`: rejects the event (returns `none`) when there is no
container, the button is not the primary one, or the point lies outside
the content rectangle; otherwise starts a gesture, recording the
mouse-down time. -/
def onMouseDown (hasContainer : Bool) (rect : Rect)
    (committedRange : StartEndRange) (minSelectionStartWidth : ℚ)
    (ev : MouseEvent) : Option GestureCtx :=
  if hasContainer = false ∨ ev.button ≠ 0 then
    none
  else if ev.pageX < rect.left ∨ ev.pageX ≥ rect.right ∨
      ev.pageY < rect.top ∨ ev.pageY ≥ rect.bottom then
    none
  else
    some ⟨committedRange, minSelectionStartWidth, rect,
      pixelToTime (ev.pageX - rect.left) rect.width committedRange⟩

/-- The `(selectionStart, selectionEnd)` pair computed identically in
`mouseMoveHandler` and `mouseUpHandler` from the current pointer x:
clamped min/max of the mouse-down time and the current time. -/
def computeSelection (ctx : GestureCtx) (pageX : ℚ) : ℚ × ℚ :=
  let mouseMoveTime := pixelToTime (pageX - ctx.rect.left) ctx.rect.width ctx.committedRange
  let selectionStart := clamp (min ctx.mouseDownTime mouseMoveTime)
    ctx.committedRange.start ctx.committedRange.endT
  let selectionEnd := clamp (max ctx.mouseDownTime mouseMoveTime)
    ctx.committedRange.start ctx.committedRange.endT
  (selectionStart, selectionEnd)

/-- `mouseMoveHandler` of a new-selection gesture. Input: the current
`isRangeSelecting` flag and the pointer x. Output: the dispatched
preview-selection update, if any, and the updated flag. -/
def mouseMoveHandler (ctx : GestureCtx) (isRangeSelecting : Bool)
    (pageX : ℚ) : Option PreviewSelection × Bool :=
  let s := computeSelection ctx pageX
  if isRangeSelecting = true ∨ ctx.minSelectionStartWidth ≤ s.2 - s.1 then
    (some (.selection s.1 s.2 true), true)
  else
    (none, isRangeSelecting)

/-- The observable outcome of `mouseUpHandler`: the dispatched update
(if any), whether the event's propagation was stopped, and whether the
capture handlers were uninstalled. -/
structure UpResult where
  update : Option PreviewSelection
  stoppedPropagation : Bool
  uninstalled : Bool
deriving DecidableEq, Repr

/-- `mouseUpHandler` of a new-selection gesture. `isRangeSelecting` is
the flag at release time; `previewSelection` is the store's current
preview selection. -/
def mouseUpHandler (ctx : GestureCtx) (isRangeSelecting : Bool)
    (previewSelection : PreviewSelection) (pageX : ℚ) : UpResult :=
  if isRangeSelecting = true then
    let s := computeSelection ctx pageX
    ⟨some (.selection s.1 s.2 false), true, true⟩
  else
    match previewSelection with
    | .selection selectionStart selectionEnd _ =>
      let mouseUpTime := pixelToTime (pageX - ctx.rect.left) ctx.rect.width ctx.committedRange
      if mouseUpTime < selectionStart ∨ mouseUpTime ≥ selectionEnd then
        ⟨some .noSelection, false, true⟩
      else
        ⟨none, false, true⟩
    | .noSelection => ⟨none, false, true⟩

/-- An effect dispatched to the store: `updatePreviewSelection` or
`commitRange`. -/
inductive Effect where
  | updatePreviewSelection (ps : PreviewSelection)
  | commitRange (start stop : ℚ)
deriving DecidableEq, Repr

/-- `_makeOnMove f`: a handle-drag move handler. `f` maps the time
delta to the `{startDelta, endDelta}` pair; `originalSelection` is the
selection recorded at gesture start; `dx` is the pixel delta since
gesture origin; `width` is the container-width prop. It unconditionally
dispatches one preview-selection update. -/
def makeOnMove (f : ℚ → ℚ × ℚ) (committedRange : StartEndRange)
    (width : ℚ) (originalSelection : ℚ × ℚ) (dx : ℚ)
    (isModifying : Bool) : List Effect :=
  let delta := dx / width * (committedRange.endT - committedRange.start)
  let selectionDeltas := f delta
  let selectionStart := max committedRange.start
    (originalSelection.1 + selectionDeltas.1)
  let selectionEnd := clamp (originalSelection.2 + selectionDeltas.2)
    selectionStart committedRange.endT
  [.updatePreviewSelection (.selection selectionStart selectionEnd isModifying)]

/-- `_rangeStartOnMove`: the start handle only moves the start boundary. -/
def rangeStartOnMove : StartEndRange → ℚ → ℚ × ℚ → ℚ → Bool → List Effect :=
  makeOnMove fun delta => (delta, 0)

/-- `_moveRangeOnMove`: the move handle translates the whole range. -/
def moveRangeOnMove : StartEndRange → ℚ → ℚ × ℚ → ℚ → Bool → List Effect :=
  makeOnMove fun delta => (delta, delta)

/-- `_rangeEndOnMove`: the end handle only moves the end boundary. -/
def rangeEndOnMove : StartEndRange → ℚ → ℚ × ℚ → ℚ → Bool → List Effect :=
  makeOnMove fun delta => (0, delta)

/-- `_zoomButtonOnClick`: stops propagation, and when a selection is
present dispatches `commitRange(selectionStart - zeroAt, selectionEnd - zeroAt)`;
otherwise dispatches nothing. -/
def zoomButtonOnClickEffects (previewSelection : PreviewSelection)
    (zeroAt : ℚ) : List Effect :=
  match previewSelection with
  | .selection selectionStart selectionEnd _ =>
    [.commitRange (selectionStart - zeroAt) (selectionEnd - zeroAt)]
  | .noSelection => []

/-- Whether an effect is an `updatePreviewSelection` dispatch. -/
def Effect.isPreviewUpdate : Effect → Bool
  | .updatePreviewSelection _ => true
  | .commitRange _ _ => false

/-- The slice of the external store this component reads and updates. -/
structure Store where
  committedRange : StartEndRange
  previewSelection : PreviewSelection
  zeroAt : ℚ
deriving DecidableEq, Repr

/-- How the store reacts to one dispatched effect. -/
def applyEffect (st : Store) : Effect → Store
  | .updatePreviewSelection ps => { st with previewSelection := ps }
  | .commitRange s e => { st with committedRange := ⟨s, e⟩ }

/-- Folding a list of dispatched effects over the store. -/
def applyEffects (st : Store) (effects : List Effect) : Store :=
  effects.foldl applyEffect st

/-- The three drag-handle kinds. -/
inductive HandleKind where
  | startH
  | moveH
  | endH
deriving DecidableEq, Repr

/-- Dispatch to the three handle move handlers by kind. -/
def handleOnMove : HandleKind → StartEndRange → ℚ → ℚ × ℚ → ℚ → Bool → List Effect
  | .startH => rangeStartOnMove
  | .moveH => moveRangeOnMove
  | .endH => rangeEndOnMove

/-- The spec's per-kind `(startDelta, endDelta)` table:
start handle `(delta, 0)`, move handle `(delta, delta)`,
end handle `(0, delta)`. -/
def kindDeltas : HandleKind → ℚ → ℚ × ℚ
  | .startH, delta => (delta, 0)
  | .moveH, delta => (delta, delta)
  | .endH, delta => (0, delta)

/-- The handle-drag result as the spec states it:
`delta_time = dx / containerWidth * (committedRange.end - committedRange.start)`,
per-kind deltas from the table, then
`newStart = max(committedRange.start, originalStart + startDelta)` and
`newEnd = clamp(originalEnd + endDelta, newStart, committedRange.end)`. -/
def handleDragSpec (k : HandleKind) (committedRange : StartEndRange)
    (containerWidth originalStart originalEnd dx : ℚ) : ℚ × ℚ :=
  let deltaTime := dx / containerWidth * (committedRange.endT - committedRange.start)
  let deltas := kindDeltas k deltaTime
  let newStart := max committedRange.start (originalStart + deltas.1)
  let newEnd := clamp (originalEnd + deltas.2) newStart committedRange.endT
  (newStart, newEnd)

/-- The selection-ordering invariant of the spec's data model: an
emitted selection has `committedRange.start ≤ start ≤ end ≤
committedRange.end`; `NoSelection` satisfies it trivially. -/
def selInv (committedRange : StartEndRange) : PreviewSelection → Prop
  | .noSelection => True
  | .selection s e _ =>
    committedRange.start ≤ s ∧ s ≤ e ∧ e ≤ committedRange.endT

/-- Run a sequence of pointer-move samples through `mouseMoveHandler`,
threading the `isRangeSelecting` flag and collecting every dispatched
update. -/
def runMoves (ctx : GestureCtx) : Bool → List ℚ → List PreviewSelection
  | _, [] => []
  | b, x :: xs =>
    let r := mouseMoveHandler ctx b x
    match r.1 with
    | some p => p :: runMoves ctx r.2 xs
    | none => runMoves ctx r.2 xs

/-- The `isRangeSelecting` flag after a sequence of pointer-move
samples. -/
def runMovesFlag (ctx : GestureCtx) (b : Bool) (xs : List ℚ) : Bool :=
  xs.foldl (fun b x => (mouseMoveHandler ctx b x).2) b

/-- The component's listener bookkeeping: the `_handlers` instance
field (holding the id of the gesture's handler pair, never reset) and
the window's installed capture-listener pairs. -/
structure ListenerState where
  handlers : Option ℕ
  windowListeners : List ℕ
deriving DecidableEq, Repr

/-- `window.addEventListener`: a no-op when the same listener is
already installed. -/
def addListener (l : List ℕ) (id : ℕ) : List ℕ :=
  if id ∈ l then l else id :: l

/-- `window.removeEventListener`: a no-op when the listener is not
installed. -/
def removeListener (l : List ℕ) (id : ℕ) : List ℕ :=
  l.erase id

/-- `_installMoveAndUpHandlers`: stores the handler pair in
`_handlers` and installs it on the window. -/
def installMoveAndUpHandlers (st : ListenerState) (id : ℕ) : ListenerState :=
  ⟨some id, addListener st.windowListeners id⟩

/-- `_uninstallMoveAndUpHandlers`: if `_handlers` is set, removes the
stored pair from the window; `_handlers` itself is not cleared. -/
def uninstallMoveAndUpHandlers (st : ListenerState) : ListenerState :=
  match st.handlers with
  | none => st
  | some id => ⟨some id, removeListener st.windowListeners id⟩

/-- One whole new-selection gesture, from accepted mouse-down (which
installs the handler pair `id`) through the move samples to the mouse
up. Returns the final listener state and how many install and
uninstall operations the gesture performed. -/
def runNewSelectionGesture (ctx : GestureCtx) (ps : PreviewSelection)
    (moves : List ℚ) (upX : ℚ) (id : ℕ) (st : ListenerState) :
    ListenerState × ℕ × ℕ :=
  let st1 := installMoveAndUpHandlers st id
  let active := runMovesFlag ctx false moves
  let r := mouseUpHandler ctx active ps upX
  if r.uninstalled = true then
    (uninstallMoveAndUpHandlers st1, 1, 1)
  else
    (st1, 1, 0)

/-! ### Helper lemmas about `clamp` and the selection computations -/

theorem le_clamp (v lo hi : ℚ) (h : lo ≤ hi) : lo ≤ clamp v lo hi := by
  unfold clamp
  split_ifs <;> linarith

theorem clamp_le_hi (v lo hi : ℚ) (h : lo ≤ hi) : clamp v lo hi ≤ hi := by
  unfold clamp
  split_ifs <;> linarith

theorem clamp_mono (v w lo hi : ℚ) (hvw : v ≤ w) :
    clamp v lo hi ≤ clamp w lo hi := by
  unfold clamp
  split_ifs <;> linarith

theorem clamp_eq_low (v lo hi : ℚ) (h : lo ≤ hi) (hv : v ≤ lo) :
    clamp v lo hi = lo := by
  unfold clamp
  split_ifs <;> linarith

theorem computeSelection_inv (ctx : GestureCtx)
    (h : ctx.committedRange.start ≤ ctx.committedRange.endT) (x : ℚ) :
    ctx.committedRange.start ≤ (computeSelection ctx x).1 ∧
    (computeSelection ctx x).1 ≤ (computeSelection ctx x).2 ∧
    (computeSelection ctx x).2 ≤ ctx.committedRange.endT := by
  refine ⟨le_clamp _ _ _ h, clamp_mono _ _ _ _ (min_le_max), clamp_le_hi _ _ _ h⟩

theorem mouseUp_always_uninstalls (ctx : GestureCtx) (b : Bool)
    (ps : PreviewSelection) (x : ℚ) :
    (mouseUpHandler ctx b ps x).uninstalled = true := by
  cases ps <;> unfold mouseUpHandler <;> dsimp only <;> split_ifs <;> rfl

/-! ### Claim theorems -/

/-- C4: the pixel-to-time conversion used on pointer-down and
pointer-move is the affine map
`(pixelOffset / containerWidth) * (range.end - range.start) + range.start`;
for fixed positive container width and an ordered range it is
non-decreasing in the pixel offset, maps offset `0` to `range.start`,
and maps offset `containerWidth` to `range.end`. -/
theorem c4_pixelToTime_affine (w : ℚ) (r : StartEndRange)
    (hw : 0 < w) (hr : r.start ≤ r.endT) :
    (∀ p q : ℚ, p ≤ q → pixelToTime p w r ≤ pixelToTime q w r) ∧
    pixelToTime 0 w r = r.start ∧
    pixelToTime w w r = r.endT := by
  refine ⟨fun p q hpq => ?_, ?_, ?_⟩
  · unfold pixelToTime
    have hd : (0:ℚ) ≤ r.endT - r.start := by linarith
    gcongr
  · simp [pixelToTime]
  · unfold pixelToTime
    rw [div_self (ne_of_gt hw)]
    ring

/-- Witness for C4 at container width 1000 and range `[0, 1000]`. -/
theorem c4_witness :
    pixelToTime 100 1000 ⟨0, 1000⟩ ≤ pixelToTime 300 1000 ⟨0, 1000⟩ ∧
    pixelToTime 0 1000 ⟨0, 1000⟩ = 0 ∧
    pixelToTime 1000 1000 ⟨0, 1000⟩ = 1000 := by
  have h := c4_pixelToTime_affine 1000 ⟨0, 1000⟩ (by norm_num) (by norm_num)
  exact ⟨h.1 100 300 (by norm_num), h.2.1, h.2.2⟩

/-- C3: a pointer-move in a new-selection gesture dispatches a
`Selection{start, end, isModifying: true}` update exactly when the
gesture is already active or the clamped span reaches
`minSelectionStartWidth`, and dispatches nothing below the threshold;
with a threshold of 50, a drag whose span is 49 dispatches nothing
while a drag reaching exactly 50 dispatches one update. -/
theorem c3_threshold_gating :
    (∀ (ctx : GestureCtx) (b : Bool) (x : ℚ),
      mouseMoveHandler ctx b x =
        if b = true ∨ ctx.minSelectionStartWidth ≤
            (computeSelection ctx x).2 - (computeSelection ctx x).1 then
          (some (.selection (computeSelection ctx x).1 (computeSelection ctx x).2 true),
            true)
        else
          (none, b)) ∧
    runMoves ⟨⟨0, 1000⟩, 50, ⟨0, 0, 1000, 100⟩, 100⟩ false [149] = [] ∧
    runMoves ⟨⟨0, 1000⟩, 50, ⟨0, 0, 1000, 100⟩, 100⟩ false [150] =
      [.selection 100 150 true] := by
  refine ⟨fun ctx b x => rfl, ?_, ?_⟩ <;>
    norm_num [runMoves, mouseMoveHandler, computeSelection, pixelToTime, clamp,
      min_def, max_def]

/-- C6: activating the zoom control with a selection present dispatches
exactly `commitRange(selectionStart - zeroAt, selectionEnd - zeroAt)`;
with `Selection{start: 100, end: 300}` and `zeroAt = 50` it requests
`commitRange(50, 250)`; with no selection it dispatches nothing. -/
theorem c6_zoom_commit :
    (∀ (s e z : ℚ) (m : Bool),
      zoomButtonOnClickEffects (.selection s e m) z = [.commitRange (s - z) (e - z)]) ∧
    (∀ z : ℚ, zoomButtonOnClickEffects .noSelection z = []) ∧
    zoomButtonOnClickEffects (.selection 100 300 false) 50 = [.commitRange 50 250] := by
  refine ⟨fun s e z m => rfl, fun z => rfl, ?_⟩
  norm_num [zoomButtonOnClickEffects]

/-- C10: the zoom path dispatches no preview-selection update, so
applying the effects of a zoom activation to any store leaves the
store's preview selection unchanged. -/
theorem c10_zoom_preserves_preview :
    (∀ (ps : PreviewSelection) (z : ℚ),
      (zoomButtonOnClickEffects ps z).filter Effect.isPreviewUpdate = []) ∧
    (∀ st : Store,
      (applyEffects st
        (zoomButtonOnClickEffects st.previewSelection st.zeroAt)).previewSelection =
        st.previewSelection) := by
  constructor
  · intro ps z
    cases ps <;> rfl
  · intro st
    rcases st with ⟨cr, ps, z⟩
    cases ps <;> rfl

/-- C8: releasing the pointer while the gesture is active dispatches
exactly one final `Selection{start, end, isModifying: false}` computed
from the release position with the same clamped min/max rule the
pointer-move handler uses, stops the event's propagation, and
uninstalls the capture listeners. -/
theorem c8_active_release_final :
    ∀ (ctx : GestureCtx) (ps : PreviewSelection) (x : ℚ),
      mouseUpHandler ctx true ps x =
        ⟨some (.selection (computeSelection ctx x).1 (computeSelection ctx x).2 false),
          true, true⟩ ∧
      (mouseMoveHandler ctx true x).1 =
        some (.selection (computeSelection ctx x).1 (computeSelection ctx x).2 true) := by
  intro ctx ps x
  constructor
  · rfl
  · simp [mouseMoveHandler]

theorem mouseMove_emit_shape (ctx : GestureCtx) (b : Bool) (x : ℚ)
    (p : PreviewSelection) (h : (mouseMoveHandler ctx b x).1 = some p) :
    p = .selection (computeSelection ctx x).1 (computeSelection ctx x).2 true := by
  unfold mouseMoveHandler at h
  dsimp only at h
  split_ifs at h
  simp only [Option.some.injEq] at h
  exact h.symm

/-- C1 (amended): every update dispatched while creating a new
selection (pointer-move, and pointer-up of an active gesture)
satisfies `committedRange.start ≤ start ≤ end ≤ committedRange.end`,
for every sequence of pointer samples; a handle-drag update satisfies
the same invariant provided the shifted start
`originalStart + startDelta` does not exceed `committedRange.end` —
without that proviso the code can emit a start beyond
`committedRange.end` and above the emitted end. -/
theorem c1_selection_invariant (ctx : GestureCtx)
    (h : ctx.committedRange.start ≤ ctx.committedRange.endT) :
    (∀ (b : Bool) (xs : List ℚ), ∀ p ∈ runMoves ctx b xs, selInv ctx.committedRange p) ∧
    (∀ (ps : PreviewSelection) (x : ℚ) (p : PreviewSelection),
      (mouseUpHandler ctx true ps x).update = some p → selInv ctx.committedRange p) ∧
    (∀ (k : HandleKind) (w o1 o2 dx : ℚ) (m : Bool) (p : PreviewSelection),
      handleOnMove k ctx.committedRange w (o1, o2) dx m =
        [.updatePreviewSelection p] →
      max ctx.committedRange.start
          (o1 + (kindDeltas k
            (dx / w * (ctx.committedRange.endT - ctx.committedRange.start))).1) ≤
        ctx.committedRange.endT →
      selInv ctx.committedRange p) := by
  refine ⟨?_, ?_, ?_⟩
  · intro b xs
    induction xs generalizing b with
    | nil => intro p hp; simp [runMoves] at hp
    | cons x xs ih =>
      intro p hp
      unfold runMoves at hp
      rcases hm : mouseMoveHandler ctx b x with ⟨o, b'⟩
      rw [hm] at hp
      cases o with
      | none => exact ih b' p hp
      | some q =>
        rcases List.mem_cons.mp hp with h1 | h1
        · subst h1
          have hq := mouseMove_emit_shape ctx b x p (by rw [hm])
          rw [hq]
          have hinv := computeSelection_inv ctx h x
          exact ⟨hinv.1, hinv.2.1, hinv.2.2⟩
        · exact ih b' p h1
  · intro ps x p hp
    unfold mouseUpHandler at hp
    rw [if_pos rfl] at hp
    dsimp only at hp
    simp only [Option.some.injEq] at hp
    rw [← hp]
    have hinv := computeSelection_inv ctx h x
    exact ⟨hinv.1, hinv.2.1, hinv.2.2⟩
  · intro k w o1 o2 dx m p hp hmax
    cases k <;>
      simp only [handleOnMove, rangeStartOnMove, moveRangeOnMove, rangeEndOnMove,
        makeOnMove, kindDeltas, List.cons.injEq, and_true,
        Effect.updatePreviewSelection.injEq] at hp hmax <;>
      rw [← hp] <;>
      exact ⟨le_max_left _ _, le_clamp _ _ _ hmax, clamp_le_hi _ _ _ hmax⟩

/-- Counterexample to C1 as stated: with `committedRange = [0, 1000]`,
container width 1000 and original selection `(800, 900)`, dragging the
start handle by `dx = 700` emits `Selection{start: 1500, end: 1000}`,
whose start escapes the committed range and exceeds its end. -/
theorem c1_counterexample :
    rangeStartOnMove ⟨0, 1000⟩ 1000 (800, 900) 700 true =
      [.updatePreviewSelection (.selection 1500 1000 true)] ∧
    ¬ selInv ⟨0, 1000⟩ (.selection 1500 1000 true) := by
  constructor
  · norm_num [rangeStartOnMove, makeOnMove, clamp, max_def]
  · simp only [selInv]
    norm_num

/-- Witness for C1 (amended) at concrete inputs: a new-selection move
and a start-handle drag that keeps the shifted start inside the range. -/
theorem c1_witness :
    selInv (⟨0, 1000⟩ : StartEndRange) (.selection 100 150 true) ∧
    selInv (⟨0, 1000⟩ : StartEndRange) (.selection 150 300 true) := by
  have h := c1_selection_invariant ⟨⟨0, 1000⟩, 50, ⟨0, 0, 1000, 100⟩, 100⟩ (by norm_num)
  constructor
  · exact h.1 false [150] _ (by
      norm_num [runMoves, mouseMoveHandler, computeSelection, pixelToTime, clamp,
        min_def, max_def])
  · exact h.2.2 .startH 1000 100 300 50 true _ (by
      norm_num [handleOnMove, rangeStartOnMove, makeOnMove, clamp, max_def, min_def])
      (by norm_num [kindDeltas])

/-- C2: each handle drag emits exactly the selection given by the
spec's formula (per-kind deltas, `newStart = max(committedRange.start,
originalStart + startDelta)`, `newEnd = clamp(originalEnd + endDelta,
newStart, committedRange.end)`); and for the end handle of a selection
whose start satisfies the data-model invariant, the emitted pair never
inverts, and dragging leftward past the current start yields
`newEnd = newStart`. -/
theorem c2_handle_drag (cr : StartEndRange) (w o1 o2 dx : ℚ) (m : Bool)
    (hlo : cr.start ≤ o1) (hhi : o1 ≤ cr.endT) :
    (∀ k : HandleKind,
      handleOnMove k cr w (o1, o2) dx m =
        [.updatePreviewSelection (.selection (handleDragSpec k cr w o1 o2 dx).1
          (handleDragSpec k cr w o1 o2 dx).2 m)]) ∧
    (handleDragSpec .endH cr w o1 o2 dx).1 ≤ (handleDragSpec .endH cr w o1 o2 dx).2 ∧
    (o2 + dx / w * (cr.endT - cr.start) ≤ o1 →
      (handleDragSpec .endH cr w o1 o2 dx).2 = (handleDragSpec .endH cr w o1 o2 dx).1) := by
  refine ⟨fun k => by cases k <;> rfl, ?_, ?_⟩
  · dsimp only [handleDragSpec, kindDeltas]
    exact le_clamp _ _ _ (by rw [add_zero, max_eq_right hlo]; exact hhi)
  · intro hpast
    dsimp only [handleDragSpec, kindDeltas]
    rw [add_zero, max_eq_right hlo]
    exact clamp_eq_low _ _ _ hhi hpast

/-- Witness for C2: end handle of selection `(100, 300)` in range
`[0, 1000]` dragged left by 500 pixels at width 1000. -/
theorem c2_witness :
    (handleDragSpec .endH ⟨0, 1000⟩ 1000 100 300 (-500)).2 =
      (handleDragSpec .endH ⟨0, 1000⟩ 1000 100 300 (-500)).1 ∧
    handleOnMove .endH ⟨0, 1000⟩ 1000 (100, 300) (-500) true =
      [.updatePreviewSelection
        (.selection (handleDragSpec .endH ⟨0, 1000⟩ 1000 100 300 (-500)).1
          (handleDragSpec .endH ⟨0, 1000⟩ 1000 100 300 (-500)).2 true)] := by
  have h := c2_handle_drag ⟨0, 1000⟩ 1000 100 300 (-500) true (by norm_num) (by norm_num)
  exact ⟨h.2.2 (by norm_num), h.1 .endH⟩

/-- C5: on a sub-threshold release with a selection present, a release
time strictly inside the half-open interval
`[selectionStart, selectionEnd)` leaves the selection untouched, a
release time outside it dispatches `NoSelection`; on this path the
event's propagation is never stopped, and the capture listeners are
uninstalled on every branch. -/
theorem c5_subthreshold_release (ctx : GestureCtx) (s e : ℚ) (m : Bool) (x : ℚ) :
    (s ≤ pixelToTime (x - ctx.rect.left) ctx.rect.width ctx.committedRange ∧
        pixelToTime (x - ctx.rect.left) ctx.rect.width ctx.committedRange < e →
      mouseUpHandler ctx false (.selection s e m) x = ⟨none, false, true⟩) ∧
    (pixelToTime (x - ctx.rect.left) ctx.rect.width ctx.committedRange < s ∨
        e ≤ pixelToTime (x - ctx.rect.left) ctx.rect.width ctx.committedRange →
      mouseUpHandler ctx false (.selection s e m) x = ⟨some .noSelection, false, true⟩) ∧
    (∀ ps : PreviewSelection,
      (mouseUpHandler ctx false ps x).stoppedPropagation = false ∧
      (mouseUpHandler ctx false ps x).uninstalled = true) := by
  refine ⟨?_, ?_, ?_⟩
  · intro hin
    have hc : ¬(pixelToTime (x - ctx.rect.left) ctx.rect.width ctx.committedRange < s ∨
        pixelToTime (x - ctx.rect.left) ctx.rect.width ctx.committedRange ≥ e) := by
      push_neg
      exact hin
    simp [mouseUpHandler, hc]
  · intro hout
    have hc : pixelToTime (x - ctx.rect.left) ctx.rect.width ctx.committedRange < s ∨
        pixelToTime (x - ctx.rect.left) ctx.rect.width ctx.committedRange ≥ e := hout
    simp [mouseUpHandler, hc]
  · intro ps
    refine ⟨?_, mouseUp_always_uninstalls ctx false ps x⟩
    cases ps <;> unfold mouseUpHandler <;> dsimp only <;> split_ifs <;>
      first
      | rfl
      | simp_all

/-- Witness for C5: range `[0, 1000]`, width 1000, selection
`(100, 300)`; release at pixel 500 (time 500, outside) dispatches
`NoSelection`; release at pixel 200 (time 200, inside) dispatches
nothing. -/
theorem c5_witness :
    mouseUpHandler ⟨⟨0, 1000⟩, 50, ⟨0, 0, 1000, 100⟩, 500⟩ false
      (.selection 100 300 false) 500 = ⟨some .noSelection, false, true⟩ ∧
    mouseUpHandler ⟨⟨0, 1000⟩, 50, ⟨0, 0, 1000, 100⟩, 500⟩ false
      (.selection 100 300 false) 200 = ⟨none, false, true⟩ := by
  have h1 := c5_subthreshold_release ⟨⟨0, 1000⟩, 50, ⟨0, 0, 1000, 100⟩, 500⟩ 100 300 false 500
  have h2 := c5_subthreshold_release ⟨⟨0, 1000⟩, 50, ⟨0, 0, 1000, 100⟩, 500⟩ 100 300 false 200
  exact ⟨h1.2.1 (by norm_num [pixelToTime]), h2.1 (by norm_num [pixelToTime])⟩

/-- C7: the claim fails on the handle-drag path: with container width
0, a start-handle drag still dispatches a preview-selection update
(the code divides `dx` by the zero width and dispatches
unconditionally), while the new-selection pointer-down path is indeed
rejected whenever the content rectangle has zero width. -/
theorem c7_zero_width :
    rangeStartOnMove ⟨0, 1000⟩ 0 (100, 300) 1 true =
      [.updatePreviewSelection (.selection 100 300 true)] ∧
    onMouseDown true ⟨0, 0, 0, 100⟩ ⟨0, 1000⟩ 50 ⟨0, 5, 0⟩ = none ∧
    onMouseDown true ⟨0, 0, 0, 100⟩ ⟨0, 1000⟩ 50 ⟨5, 5, 0⟩ = none ∧
    onMouseDown true ⟨0, 0, 0, 100⟩ ⟨0, 1000⟩ 50 ⟨-5, 5, 0⟩ = none := by
  refine ⟨?_, ?_, ?_, ?_⟩ <;>
    norm_num [rangeStartOnMove, makeOnMove, clamp, max_def, onMouseDown,
      Rect.right, Rect.bottom]

/-- C9: a new-selection gesture performs exactly one listener install
and exactly one uninstall (the release uninstalls on every exit path),
restoring the window's listeners; uninstalling with nothing installed
is a no-op, and a double removal does not change the window's
listeners. -/
theorem c9_capture_lifecycle (ctx : GestureCtx) (ps : PreviewSelection)
    (moves : List ℚ) (upX : ℚ) (id : ℕ) (st : ListenerState)
    (hid : id ∉ st.windowListeners) :
    (runNewSelectionGesture ctx ps moves upX id st).2.1 = 1 ∧
    (runNewSelectionGesture ctx ps moves upX id st).2.2 = 1 ∧
    (runNewSelectionGesture ctx ps moves upX id st).1.windowListeners =
      st.windowListeners ∧
    (∀ st' : ListenerState, st'.handlers = none →
      uninstallMoveAndUpHandlers st' = st') ∧
    (∀ st' : ListenerState, st'.windowListeners.Nodup →
      (uninstallMoveAndUpHandlers (uninstallMoveAndUpHandlers st')).windowListeners =
        (uninstallMoveAndUpHandlers st').windowListeners) := by
  have hrun : runNewSelectionGesture ctx ps moves upX id st =
      (uninstallMoveAndUpHandlers (installMoveAndUpHandlers st id), 1, 1) := by
    unfold runNewSelectionGesture
    rw [if_pos (mouseUp_always_uninstalls ctx (runMovesFlag ctx false moves) ps upX)]
  refine ⟨by rw [hrun], by rw [hrun], ?_, ?_, ?_⟩
  · rw [hrun]
    simp [installMoveAndUpHandlers, uninstallMoveAndUpHandlers, addListener,
      removeListener, hid]
  · intro st' h'
    unfold uninstallMoveAndUpHandlers
    rw [h']
  · intro st' hnd
    rcases hst : st'.handlers with _ | j
    · have h1 : uninstallMoveAndUpHandlers st' = st' := by
        unfold uninstallMoveAndUpHandlers
        rw [hst]
      rw [h1, h1]
    · have h1 : uninstallMoveAndUpHandlers st' =
          ⟨some j, removeListener st'.windowListeners j⟩ := by
        unfold uninstallMoveAndUpHandlers
        rw [hst]
      rw [h1]
      unfold uninstallMoveAndUpHandlers
      dsimp only [removeListener]
      exact List.erase_of_not_mem fun hmem =>
        ((List.Nodup.mem_erase_iff hnd).mp hmem).1 rfl

/-- Witness for C9: an empty gesture over an empty listener state. -/
theorem c9_witness :
    (runNewSelectionGesture ⟨⟨0, 1000⟩, 50, ⟨0, 0, 1000, 100⟩, 100⟩ .noSelection
      [] 0 0 ⟨none, []⟩).2.1 = 1 ∧
    (runNewSelectionGesture ⟨⟨0, 1000⟩, 50, ⟨0, 0, 1000, 100⟩, 100⟩ .noSelection
      [] 0 0 ⟨none, []⟩).2.2 = 1 ∧
    (runNewSelectionGesture ⟨⟨0, 1000⟩, 50, ⟨0, 0, 1000, 100⟩, 100⟩ .noSelection
      [] 0 0 ⟨none, []⟩).1.windowListeners = [] ∧
    uninstallMoveAndUpHandlers ⟨none, [5]⟩ = ⟨none, [5]⟩ ∧
    (uninstallMoveAndUpHandlers (uninstallMoveAndUpHandlers ⟨some 3, [3]⟩)).windowListeners =
      (uninstallMoveAndUpHandlers ⟨some 3, [3]⟩).windowListeners := by
  have h := c9_capture_lifecycle ⟨⟨0, 1000⟩, 50, ⟨0, 0, 1000, 100⟩, 100⟩ .noSelection
    [] 0 0 ⟨none, []⟩ (by simp)
  exact ⟨h.1, h.2.1, h.2.2.1, h.2.2.2.1 ⟨none, [5]⟩ rfl, h.2.2.2.2 ⟨some 3, [3]⟩ (by simp)⟩

end TimelineSelection
